import Mathlib

/-!
Shallow embedding of the Gloo construction-coordination app's core logic:
the tag detector (`src/lib/detectTags.ts`), the channel registry
(`src/lib/channels.ts`), the message / schedule / daily-log store and
read ledgers (`src/lib/store.ts`), and the parse endpoint's validation
(`src/app/api/parse-log/route.ts`).

Modelling conventions:
* JavaScript timestamps — ISO strings compared through
  `new Date(s).getTime()` — are embedded as `Int` milliseconds since the
  epoch; `new Date().toISOString()` / `Date.now()` at a call site becomes
  an explicit `now : Int` parameter.
* JavaScript `Record` objects keyed by strings become functions
  `String → Option _`.
* `string.includes(sub)` becomes `decide (sub.toList <:+: s.toList)`
  (substring containment on the character list).
* `localStorage`-backed collections become fields of an explicit
  `Store` value threaded through the operations.
-/

namespace Gloo

/-- JavaScript `String.toLowerCase()` on the character content
(lower-casing each character, as `String.toLower` does, but phrased on
the character list so that it evaluates by kernel reduction). -/
def jsToLower (s : String) : String :=
  ⟨s.data.map Char.toLower⟩

/-- JavaScript `haystack.includes(needle)`: substring containment. -/
def jsIncludes (haystack needle : String) : Bool :=
  decide (needle.toList <:+: haystack.toList)

/-- Display record returned by the tag detector (`DetectedTag` in
`src/lib/detectTags.ts`). -/
structure DetectedTag where
  id : String
  label : String
  icon : String
  color : String
  bgColor : String
deriving DecidableEq, Repr

/-- One entry of the `TAG_DEFINITIONS` table: a `DetectedTag` payload
plus the keyword list that triggers it. -/
structure TagDef where
  id : String
  label : String
  icon : String
  color : String
  bgColor : String
  keywords : List String
deriving DecidableEq, Repr

/-- Projection from a table entry to the returned record (the object
literal pushed onto `found` in `detectTags`). -/
def TagDef.toDetectedTag (d : TagDef) : DetectedTag :=
  { id := d.id, label := d.label, icon := d.icon, color := d.color,
    bgColor := d.bgColor }

/-- The fixed `TAG_DEFINITIONS` table of `src/lib/detectTags.ts`. -/
def TAG_DEFINITIONS : List TagDef := [
  { id := "concrete", label := "Concrete", icon := "🧱",
    color := "text-amber-400", bgColor := "bg-amber-400/15",
    keywords := ["concrete", "pour", "foundation", "slab", "cure", "forms", "rebar"] },
  { id := "electrical", label := "Electrical", icon := "⚡",
    color := "text-blue-400", bgColor := "bg-blue-400/15",
    keywords := ["electrical", "panel", "wire", "conduit", "circuit", "breaker", "rough-in"] },
  { id := "plumbing", label := "Plumbing", icon := "🔧",
    color := "text-purple-400", bgColor := "bg-purple-400/15",
    keywords := ["plumbing", "pipe", "drain", "water", "sewer", "fixture"] },
  { id := "framing", label := "Framing", icon := "🪵",
    color := "text-green-400", bgColor := "bg-green-400/15",
    keywords := ["framing", "stud", "joist", "header", "truss", "sheathing"] },
  { id := "roofing", label := "Roofing", icon := "🏠",
    color := "text-red-400", bgColor := "bg-red-400/15",
    keywords := ["roof", "roofing", "shingle", "membrane", "flashing"] },
  { id := "hvac", label := "HVAC", icon := "❄️",
    color := "text-cyan-400", bgColor := "bg-cyan-400/15",
    keywords := ["hvac", "duct", "ductwork", "mechanical", "heating", "cooling"] },
  { id := "safety", label := "Safety", icon := "🦺",
    color := "text-rose-400", bgColor := "bg-rose-400/15",
    keywords := ["safety", "guardrail", "harness", "osha", "fall protection", "hazard"] },
  { id := "delay", label := "Delay", icon := "⏱️",
    color := "text-red-400", bgColor := "bg-red-400/15",
    keywords := ["delay", "delayed", "pushed", "backorder", "hold", "waiting"] },
  { id := "rfi", label := "RFI", icon := "📋",
    color := "text-blue-400", bgColor := "bg-blue-400/15",
    keywords := ["rfi", "submittal", "clarification", "architect"] },
  { id := "inspection", label := "Inspection", icon := "🔍",
    color := "text-purple-400", bgColor := "bg-purple-400/15",
    keywords := ["inspection", "inspector", "passed", "failed", "code"] },
  { id := "schedule", label := "Schedule", icon := "📅",
    color := "text-orange-400", bgColor := "bg-orange-400/15",
    keywords := ["schedule", "timeline", "deadline", "milestone"] },
  { id := "weather", label := "Weather", icon := "🌤️",
    color := "text-slate-400", bgColor := "bg-slate-400/15",
    keywords := ["weather", "rain", "wind", "storm", "temperature"] }
]

/-- Whether a tag definition matches a lowercased text:
`def.keywords.some(kw => lower.includes(kw))`. -/
def TagDef.matches (d : TagDef) (lower : String) : Bool :=
  d.keywords.any (fun kw => jsIncludes lower kw)

/-- Function `detectTags` of `src/lib/detectTags.ts`: early-return `[]` on falsy
(empty) text, otherwise collect the matching table entries in table
order. -/
def detectTags (text : String) : List DetectedTag :=
  if text = "" then []
  else
    let lower := jsToLower text
    (TAG_DEFINITIONS.filter (fun d => d.matches lower)).map TagDef.toDetectedTag

example : (detectTags "Framing crew finished the north wall").map DetectedTag.id = ["framing"] := by decide

example : detectTags "" = [] := by decide

example : (detectTags "RFI needs an inspection, Pour tomorrow").map DetectedTag.id
    = ["concrete", "rfi", "inspection"] := by decide

/-! ## Channel registry (`src/lib/channels.ts`) -/

/-- The `type` discriminator of a channel configuration. -/
inductive ChannelType where
  | general
  | tagFilter
  | scheduleView
  | navigation
deriving DecidableEq, Repr

/-- Structure `ChannelConfig` of `src/lib/channels.ts`. -/
structure ChannelConfig where
  id : String
  name : String
  description : String
  tagIds : List String
  type : ChannelType
deriving DecidableEq, Repr

/-- The static `CHANNELS` table of `src/lib/channels.ts`. -/
def CHANNELS : List ChannelConfig := [
  { id := "general", name := "general", description := "Project-wide discussion",
    tagIds := [], type := .general },
  { id := "concrete", name := "concrete", description := "Concrete, foundation & slab work",
    tagIds := ["concrete"], type := .tagFilter },
  { id := "electrical", name := "electrical", description := "Electrical, panels & wiring",
    tagIds := ["electrical"], type := .tagFilter },
  { id := "framing", name := "framing", description := "Framing, trusses & structural",
    tagIds := ["framing"], type := .tagFilter },
  { id := "plumbing", name := "plumbing", description := "Plumbing, pipes & fixtures",
    tagIds := ["plumbing"], type := .tagFilter },
  { id := "hvac", name := "hvac", description := "HVAC, ductwork & mechanical",
    tagIds := ["hvac"], type := .tagFilter },
  { id := "roofing", name := "roofing", description := "Roofing & waterproofing",
    tagIds := ["roofing"], type := .tagFilter },
  { id := "safety", name := "safety", description := "Safety, OSHA & fall protection",
    tagIds := ["safety"], type := .tagFilter },
  { id := "rfis-submittals", name := "rfis-submittals",
    description := "RFIs, submittals & inspections",
    tagIds := ["rfi", "inspection"], type := .tagFilter },
  { id := "schedule", name := "schedule", description := "Schedule, timeline & milestones",
    tagIds := ["schedule"], type := .scheduleView },
  { id := "daily-log", name := "daily-log", description := "Daily job site logs",
    tagIds := [], type := .navigation }
]

/-- Lookup `getChannelById` of `src/lib/channels.ts`. -/
def getChannelById (id : String) : Option ChannelConfig :=
  CHANNELS.find? (fun ch => ch.id == id)

/-! ## Data model (`src/types/models.ts`) -/

/-- The `ScheduleItemStatus` union type. -/
inductive ScheduleItemStatus where
  | notStarted
  | inProgress
  | completed
  | atRisk
  | blocked
deriving DecidableEq, Repr

/-- A `ScheduleItem`; timestamps are embedded as epoch milliseconds. -/
structure ScheduleItem where
  id : String
  projectId : String
  title : String
  description : Option String
  dueDate : String
  status : ScheduleItemStatus
  assignedTo : Option String
  order : Int
  createdAt : Int
  updatedAt : Int
deriving DecidableEq, Repr

/-- A `Message`; `scheduleItemId = none` is the project's general thread;
`createdAt` is `new Date(createdAt).getTime()` of the stored ISO string. -/
structure Message where
  id : String
  projectId : String
  scheduleItemId : Option String
  authorId : String
  authorName : String
  authorRole : String
  content : String
  createdAt : Int
deriving DecidableEq, Repr

/-- The `WeatherCondition` union type. -/
inductive WeatherCondition where
  | clear
  | cloudy
  | rain
  | snow
  | hot
  | cold
deriving DecidableEq, Repr

/-- The shape of `ParsedLogData.weather`. -/
structure WeatherInfo where
  condition : String
  details : String
deriving DecidableEq, Repr

/-- One `ParsedLogData.crew` entry. -/
structure CrewEntry where
  company : String
  count : Int
  role : Option String
deriving DecidableEq, Repr

/-- One `ParsedLogData.deliveries` entry. -/
structure DeliveryEntry where
  material : String
  status : String
  details : String
deriving DecidableEq, Repr

/-- One `ParsedLogData.inspections` entry. -/
structure InspectionEntry where
  inspector : String
  area : String
  result : String
  details : String
deriving DecidableEq, Repr

/-- One `ParsedLogData.delays` entry. -/
structure DelayEntry where
  issue : String
  impact : String
deriving DecidableEq, Repr

/-- One `ParsedLogData.workCompleted` entry. -/
structure WorkCompletedEntry where
  description : String
  location : Option String
  scheduleItemId : Option String
  scheduleItemTitle : Option String
deriving DecidableEq, Repr

/-- The `ParsedLogData` structured AI output. -/
structure ParsedLogData where
  weather : Option WeatherInfo
  crew : Option (List CrewEntry)
  deliveries : Option (List DeliveryEntry)
  inspections : Option (List InspectionEntry)
  delays : Option (List DelayEntry)
  workCompleted : Option (List WorkCompletedEntry)
deriving DecidableEq, Repr

/-- A `DailyLog`; at most one per (projectId, date) is the intended
invariant maintained by `upsertDailyLog`. -/
structure DailyLog where
  id : String
  projectId : String
  date : String
  rawEntry : String
  weather : Option WeatherCondition
  crewCount : Option Int
  visitors : Option String
  parsedData : Option ParsedLogData
  createdAt : Int
  updatedAt : Int
deriving DecidableEq, Repr

/-! ## The store (`src/lib/store.ts`)

The `localStorage`-backed collections become one explicit record.  The
two read ledgers (thread reads under `constructionglue-read-timestamps`,
channel reads under `constructionglue-channel-read-timestamps`) are kept
as separate fields, mirroring the separate storage keys; each maps a
user id and an encoded key to the last-read time. -/

structure Store where
  scheduleItems : List ScheduleItem
  messages : List Message
  readTimestamps : String → String → Option Int
  channelReadTimestamps : String → String → Option Int
  dailyLogs : List DailyLog

/-- Key builder `getThreadKey` of `src/lib/store.ts`.  The source tests the
JavaScript truthiness of `scheduleItemId`, so an empty-string item id
falls back to the `general` key exactly like `null`. -/
def getThreadKey (projectId : String) (scheduleItemId : Option String) : String :=
  match scheduleItemId with
  | some itemId =>
      if itemId = "" then projectId ++ ":general" else projectId ++ ":" ++ itemId
  | none => projectId ++ ":general"

/-- Query `getMessagesForThread`: messages of one thread, sorted by creation
time ascending. -/
def getMessagesForThread (s : Store) (projectId : String)
    (scheduleItemId : Option String) : List Message :=
  (s.messages.filter
      (fun m => m.projectId == projectId && m.scheduleItemId == scheduleItemId)).mergeSort
    (fun a b => decide (a.createdAt ≤ b.createdAt))

/-- Lookup `getLastReadTimestamp`: thread-read ledger lookup. -/
def getLastReadTimestamp (s : Store) (userId projectId : String)
    (scheduleItemId : Option String) : Option Int :=
  s.readTimestamps userId (getThreadKey projectId scheduleItemId)

/-- Operation `markThreadAsRead`: overwrite the thread-read ledger entry with the
current time. -/
def markThreadAsRead (now : Int) (userId projectId : String)
    (scheduleItemId : Option String) (s : Store) : Store :=
  { s with readTimestamps := fun u k =>
      if u == userId && k == getThreadKey projectId scheduleItemId then some now
      else s.readTimestamps u k }

/-- Counter `getUnreadCountForThread` of `src/lib/store.ts`. -/
def getUnreadCountForThread (s : Store) (userId projectId : String)
    (scheduleItemId : Option String) : Nat :=
  let lastRead := getLastReadTimestamp s userId projectId scheduleItemId
  let messages := getMessagesForThread s projectId scheduleItemId
  match lastRead with
  | none =>
      -- Never read - all messages except the user's own are unread
      (messages.filter (fun m => !(m.authorId == userId))).length
  | some lastReadTime =>
      (messages.filter
        (fun m => !(m.authorId == userId) && decide (lastReadTime < m.createdAt))).length

/-- Query `getAllMessagesForProject`: every message of the project (all
threads), sorted by creation time ascending. -/
def getAllMessagesForProject (s : Store) (projectId : String) : List Message :=
  (s.messages.filter (fun m => m.projectId == projectId)).mergeSort
    (fun a b => decide (a.createdAt ≤ b.createdAt))

/-- Operation `markChannelAsRead`: overwrite the channel-read ledger entry. -/
def markChannelAsRead (now : Int) (userId projectId channelId : String)
    (s : Store) : Store :=
  { s with channelReadTimestamps := fun u k =>
      if u == userId && k == projectId ++ ":" ++ channelId then some now
      else s.channelReadTimestamps u k }

/-- Lookup `getChannelLastReadTimestamp`: channel-read ledger lookup. -/
def getChannelLastReadTimestamp (s : Store) (userId projectId channelId : String) :
    Option Int :=
  s.channelReadTimestamps userId (projectId ++ ":" ++ channelId)

/-- The message filter used for `tag-filter` / `schedule-view` channels
in `getUnreadCountsByChannel` (and, identically, for the channel view's
`filteredMessages` in `src/components/ChannelView.tsx`):
`detectTags(msg.content).some(tag => channel.tagIds.includes(tag.id))`. -/
def messageMatchesChannel (ch : ChannelConfig) (m : Message) : Bool :=
  (detectTags m.content).any (fun tag => ch.tagIds.contains tag.id)

/-- The per-channel body of the loop in `getUnreadCountsByChannel`:
look up the channel-read ledger (defaulting to epoch zero), select the
channel's candidate messages, and count the unread ones.  Navigation
channels are assigned 0 directly. -/
def channelUnreadCount (s : Store) (userId projectId : String)
    (ch : ChannelConfig) : Nat :=
  match ch.type with
  | .navigation => 0
  | _ =>
    let lastReadTime : Int :=
      (getChannelLastReadTimestamp s userId projectId ch.id).getD 0
    let allMessages : List Message := getAllMessagesForProject s projectId
    let channelMessages : List Message :=
      match ch.type with
      | .general => allMessages.filter (fun m => m.scheduleItemId == none)
      | _ => allMessages.filter (fun m => messageMatchesChannel ch m)
    (channelMessages.filter
      (fun m => !(m.authorId == userId) && decide (lastReadTime < m.createdAt))).length

/-- Counter `getUnreadCountsByChannel` of `src/lib/store.ts`: the record built
by the channel loop, as an association list in `CHANNELS` order. -/
def getUnreadCountsByChannel (s : Store) (userId projectId : String) :
    List (String × Nat) :=
  CHANNELS.map (fun ch => (ch.id, channelUnreadCount s userId projectId ch))

/-! ## Schedule-item operations (`src/lib/store.ts`)

`updateScheduleItemStatus` / `updateScheduleItem` locate the first item
with the given id (`findIndex`), replace it in place and return it, or
return `undefined` leaving the collection untouched; `deleteScheduleItem`
splices it out and returns `true`, or returns `false`.  The
`findIndex`-then-assign pattern is embedded as one first-match recursion
over the list. -/

/-- The four-field `Partial` update accepted by `updateScheduleItem`.
Both call sites (`src/components/ThreadView.tsx`) supply all four keys,
so the object spread replaces all four fields. -/
structure ScheduleItemUpdates where
  title : String
  description : Option String
  dueDate : String
  assignedTo : Option String
deriving DecidableEq, Repr

/-- First-match update of `updateScheduleItemStatus`: `none` when no
item has the id. -/
def updateStatusGo (now : Int) (itemId : String) (status : ScheduleItemStatus) :
    List ScheduleItem → Option (ScheduleItem × List ScheduleItem)
  | [] => none
  | item :: rest =>
    if item.id == itemId then
      let updated : ScheduleItem := { item with status := status, updatedAt := now }
      some (updated, updated :: rest)
    else
      (updateStatusGo now itemId status rest).map (fun r => (r.1, item :: r.2))

/-- Operation `updateScheduleItemStatus` of `src/lib/store.ts`. -/
def updateScheduleItemStatus (now : Int) (itemId : String)
    (status : ScheduleItemStatus) (s : Store) : Option ScheduleItem × Store :=
  match updateStatusGo now itemId status s.scheduleItems with
  | some (u, items2) => (some u, { s with scheduleItems := items2 })
  | none => (none, s)

/-- First-match update of `updateScheduleItem`. -/
def updateItemGo (now : Int) (itemId : String) (upd : ScheduleItemUpdates) :
    List ScheduleItem → Option (ScheduleItem × List ScheduleItem)
  | [] => none
  | item :: rest =>
    if item.id == itemId then
      let updated : ScheduleItem :=
        { item with title := upd.title, description := upd.description,
                    dueDate := upd.dueDate, assignedTo := upd.assignedTo,
                    updatedAt := now }
      some (updated, updated :: rest)
    else
      (updateItemGo now itemId upd rest).map (fun r => (r.1, item :: r.2))

/-- Operation `updateScheduleItem` of `src/lib/store.ts`. -/
def updateScheduleItem (now : Int) (itemId : String) (upd : ScheduleItemUpdates)
    (s : Store) : Option ScheduleItem × Store :=
  match updateItemGo now itemId upd s.scheduleItems with
  | some (u, items2) => (some u, { s with scheduleItems := items2 })
  | none => (none, s)

/-- First-match removal of `deleteScheduleItem` (`findIndex` + `splice`):
`none` when no item has the id. -/
def deleteGo (itemId : String) : List ScheduleItem → Option (List ScheduleItem)
  | [] => none
  | item :: rest =>
    if item.id == itemId then some rest
    else (deleteGo itemId rest).map (fun rest2 => item :: rest2)

/-- Operation `deleteScheduleItem` of `src/lib/store.ts`. -/
def deleteScheduleItem (itemId : String) (s : Store) : Bool × Store :=
  match deleteGo itemId s.scheduleItems with
  | some items2 => (true, { s with scheduleItems := items2 })
  | none => (false, s)

/-! ## Daily-log operations (`src/lib/store.ts`) -/

/-- The `updates` argument of `upsertDailyLog`.  The single call site
(`src/app/projects/[id]/log/page.tsx`) supplies all four keys (the
optional ones possibly `undefined`), so the object spread replaces all
four fields of an existing record. -/
structure DailyLogUpdates where
  rawEntry : String
  weather : Option WeatherCondition
  crewCount : Option Int
  visitors : Option String
deriving DecidableEq, Repr

/-- Lookup `getDailyLogByDate` of `src/lib/store.ts`. -/
def getDailyLogByDate (s : Store) (projectId date : String) : Option DailyLog :=
  s.dailyLogs.find? (fun log => log.projectId == projectId && log.date == date)

/-- Merge of `{...logs[index], ...updates, updatedAt: now}` for the
found branch of `upsertDailyLog`. -/
def DailyLog.applyUpdates (log : DailyLog) (u : DailyLogUpdates) (now : Int) :
    DailyLog :=
  { log with rawEntry := u.rawEntry, weather := u.weather,
             crewCount := u.crewCount, visitors := u.visitors,
             updatedAt := now }

/-- First-match in-place update of `upsertDailyLog` (`findIndex` +
assign): `none` when no record matches (projectId, date). -/
def upsertGo (now : Int) (projectId date : String) (u : DailyLogUpdates) :
    List DailyLog → Option (DailyLog × List DailyLog)
  | [] => none
  | log :: rest =>
    if log.projectId == projectId && log.date == date then
      let updated := log.applyUpdates u now
      some (updated, updated :: rest)
    else
      (upsertGo now projectId date u rest).map (fun r => (r.1, log :: r.2))

/-- Operation `upsertDailyLog` of `src/lib/store.ts`: update the first record for
(projectId, date) in place, else push a fresh record.  The source draws
the timestamps from `new Date().toISOString()` and the id suffix from
`Date.now()` at the same call; both become the one `now` parameter. -/
def upsertDailyLog (now : Int) (projectId date : String) (u : DailyLogUpdates)
    (s : Store) : DailyLog × Store :=
  match upsertGo now projectId date u s.dailyLogs with
  | some (l, logs2) => (l, { s with dailyLogs := logs2 })
  | none =>
    let newLog : DailyLog :=
      { id := "dailylog-" ++ toString now, projectId := projectId, date := date,
        rawEntry := u.rawEntry, weather := u.weather, crewCount := u.crewCount,
        visitors := u.visitors, parsedData := none,
        createdAt := now, updatedAt := now }
    (newLog, { s with dailyLogs := s.dailyLogs ++ [newLog] })

/-! ## Parse endpoint (`src/app/api/parse-log/route.ts`) -/

/-- JavaScript `String.trim()`: drop whitespace from both ends
(embedded with `Char.isWhitespace`, which covers the ASCII whitespace
the app produces). -/
def jsTrim (s : String) : String :=
  ⟨((s.data.dropWhile Char.isWhitespace).reverse.dropWhile Char.isWhitespace).reverse⟩

/-- One `{id, title, description}` element of the `scheduleItems`
request field. -/
structure ScheduleItemRef where
  id : String
  title : String
  description : Option String
deriving DecidableEq, Repr

/-- What the `POST` handler does with a request, up to the downstream
text-classification call: either an error response (message and HTTP
status) without any downstream call, or the downstream call with the
given payload. -/
inductive ParseOutcome where
  | reject (message : String) (status : Nat)
  | callModel (rawEntry : String) (scheduleItems : List ScheduleItemRef)
deriving DecidableEq, Repr

/-- The validation phase of `POST` in `src/app/api/parse-log/route.ts`:
missing API key → 500; falsy (`none` / empty) or under-50-characters
(after trim) `rawEntry` → 400 `"Entry too short to parse"`; otherwise
proceed to the downstream call. -/
def parseLogPOST (apiKey : Option String) (rawEntry : Option String)
    (scheduleItems : List ScheduleItemRef) : ParseOutcome :=
  match apiKey with
  | none => .reject "ANTHROPIC_API_KEY not configured" 500
  | some _ =>
    match rawEntry with
    | none => .reject "Entry too short to parse" 400
    | some r =>
      if r == "" || (jsTrim r).length < 50 then
        .reject "Entry too short to parse" 400
      else
        .callModel r scheduleItems

/-- The debounced save callback of the daily-log page
(`src/app/projects/[id]/log/page.tsx`): `upsertDailyLog` first,
unconditionally, then the parse request is issued on the saved text.
The store it leaves behind is the store after the upsert, whatever the
parse outcome. -/
def saveThenParse (now : Int) (apiKey : Option String) (projectId date : String)
    (u : DailyLogUpdates) (items : List ScheduleItemRef) (s : Store) :
    Store × ParseOutcome :=
  ((upsertDailyLog now projectId date u s).2,
   parseLogPOST apiKey (some u.rawEntry) items)

/-! ## The two "never read" defaults

`getUnreadCountsByChannel` defaults a missing channel-read ledger entry
to `lastReadTime = 0` and then counts with `createdAt > 0`, while
`getUnreadCountForThread` handles a missing thread-read ledger entry in
a separate branch that counts every non-self message.  The two counting
rules are isolated here for comparison. -/

/-- The channel ledger's never-read counting rule: the generic count of
`getUnreadCountsByChannel` with its `lastReadTime = 0` default. -/
def channelNeverReadCount (userId : String) (msgs : List Message) : Nat :=
  (msgs.filter (fun m => !(m.authorId == userId) && decide ((0 : Int) < m.createdAt))).length

/-- The thread ledger's never-read branch of `getUnreadCountForThread`:
count every message not authored by the user. -/
def threadNeverReadCount (userId : String) (msgs : List Message) : Nat :=
  (msgs.filter (fun m => !(m.authorId == userId))).length

/-! ## Concrete sample data used to instantiate the theorems -/

def demoItem : ScheduleItem :=
  { id := "item1", projectId := "p1", title := "Framing - Building A",
    description := some "Structural framing", dueDate := "2026-03-01",
    status := .inProgress, assignedTo := some "alice", order := 1,
    createdAt := 10, updatedAt := 20 }

def demoMessages : List Message := [
  { id := "m1", projectId := "p1", scheduleItemId := none, authorId := "alice",
    authorName := "Alice", authorRole := "project_manager",
    content := "Concrete pour on Friday", createdAt := 100 },
  { id := "m2", projectId := "p1", scheduleItemId := none, authorId := "bob",
    authorName := "Bob", authorRole := "superintendent",
    content := "Inspector passed the slab", createdAt := 200 },
  { id := "m3", projectId := "p1", scheduleItemId := some "item1", authorId := "bob",
    authorName := "Bob", authorRole := "superintendent",
    content := "Framing crew on site", createdAt := 300 } ]

def demoLog : DailyLog :=
  { id := "dailylog-1", projectId := "p1", date := "2026-02-03",
    rawEntry := "Cloudy morning", weather := some .cloudy, crewCount := some 14,
    visitors := some "inspector", parsedData := none, createdAt := 50, updatedAt := 60 }

def demoStore : Store :=
  { scheduleItems := [demoItem], messages := demoMessages,
    readTimestamps := fun _ _ => none, channelReadTimestamps := fun _ _ => none,
    dailyLogs := [demoLog] }

/-- Variant of `demoStore` with a thread-read ledger entry for alice on the
general thread of `p1`, at time 200. -/
def readStore : Store :=
  { demoStore with readTimestamps := fun u k =>
      if u == "alice" && k == "p1:general" then some 200 else none }

/-- A message created exactly at epoch zero. -/
def epochMsg : Message :=
  { id := "m0", projectId := "p1", scheduleItemId := none, authorId := "author0",
    authorName := "A", authorRole := "superintendent", content := "hello",
    createdAt := 0 }

/-- A store whose only message was created exactly at epoch zero, with
both read ledgers empty. -/
def epochStore : Store :=
  { scheduleItems := [], messages := [epochMsg],
    readTimestamps := fun _ _ => none, channelReadTimestamps := fun _ _ => none,
    dailyLogs := [] }

def demoUpdates : DailyLogUpdates :=
  { rawEntry := "Rain all morning, crew of 8 on interior work.",
    weather := some .rain, crewCount := some 8, visitors := none }

def demoItemUpdates : ScheduleItemUpdates :=
  { title := "Framing - Building A (rev)", description := none,
    dueDate := "2026-04-01", assignedTo := none }

/-! ## Tag-detector lemmas -/

/-- Distinct table entries project to distinct `DetectedTag` records
(their ids are pairwise distinct). -/
theorem toDetectedTag_injOn :
    ∀ d1 ∈ TAG_DEFINITIONS, ∀ d2 ∈ TAG_DEFINITIONS,
      d1.toDetectedTag = d2.toDetectedTag → d1 = d2 := by decide

/-- The projected tag table has no duplicates. -/
theorem tagTable_proj_nodup : (TAG_DEFINITIONS.map TagDef.toDetectedTag).Nodup := by
  decide

/-- Equationally, `detectTags` is the matching filter of the table, projected — the
early return for empty text coincides with the filter, because no
configured keyword matches the empty string. -/
theorem detectTags_eq_filter (text : String) :
    detectTags text =
      (TAG_DEFINITIONS.filter (fun d => d.matches (jsToLower text))).map
        TagDef.toDetectedTag := by
  unfold detectTags
  by_cases h0 : text = ""
  · subst h0
    have hnil : TAG_DEFINITIONS.filter (fun d => d.matches (jsToLower "")) = [] := by
      decide
    simp [hnil]
  · simp [h0]

/-- Membership characterization of `detectTags`. -/
theorem mem_detectTags_iff {text : String} {d : TagDef} (hd : d ∈ TAG_DEFINITIONS) :
    d.toDetectedTag ∈ detectTags text ↔
      ∃ kw ∈ d.keywords, kw.toList <:+: (jsToLower text).toList := by
  rw [detectTags_eq_filter]
  constructor
  · intro h
    obtain ⟨d2, hd2, heq⟩ := List.mem_map.mp h
    obtain ⟨hd2mem, hp⟩ := List.mem_filter.mp hd2
    have hdd : d2 = d := toDetectedTag_injOn d2 hd2mem d hd heq
    subst hdd
    simpa [TagDef.matches, jsIncludes, List.any_eq_true] using hp
  · rintro ⟨kw, hkw, hinf⟩
    refine List.mem_map.mpr ⟨d, List.mem_filter.mpr ⟨hd, ?_⟩, rfl⟩
    simp only [TagDef.matches, jsIncludes, List.any_eq_true]
    exact ⟨kw, hkw, by simpa using hinf⟩

/-- C1: `detectTags` returns exactly the tags one of whose keywords
occurs (case-insensitively, as a substring anywhere) in the input: a
table entry's projection is in the result iff one of its keywords is a
substring of the lowercased input; the result is a sublist of the
projected table (so it is listed in table order, independent of input
order); it has no duplicates (each matched tag appears exactly once, no
matter how many keywords match or how often); and when no configured
keyword occurs — in particular for the empty string — the result is
empty. -/
theorem detectTags_spec :
    (∀ text : String, ∀ d ∈ TAG_DEFINITIONS,
        (d.toDetectedTag ∈ detectTags text ↔
          ∃ kw ∈ d.keywords, kw.toList <:+: (jsToLower text).toList))
    ∧ (∀ text : String,
        (detectTags text).Sublist (TAG_DEFINITIONS.map TagDef.toDetectedTag))
    ∧ (∀ text : String, (detectTags text).Nodup)
    ∧ (∀ text : String,
        (∀ d ∈ TAG_DEFINITIONS, ∀ kw ∈ d.keywords,
            ¬ kw.toList <:+: (jsToLower text).toList) →
          detectTags text = [])
    ∧ detectTags "" = [] := by
  have hsub : ∀ text : String,
      (detectTags text).Sublist (TAG_DEFINITIONS.map TagDef.toDetectedTag) := by
    intro text
    rw [detectTags_eq_filter]
    exact (List.filter_sublist _).map _
  refine ⟨fun text d hd => mem_detectTags_iff hd, hsub, ?_, ?_, by decide⟩
  · intro text
    exact List.Nodup.sublist (hsub text) tagTable_proj_nodup
  · intro text hnone
    rw [detectTags_eq_filter]
    have : TAG_DEFINITIONS.filter (fun d => d.matches (jsToLower text)) = [] := by
      rw [List.filter_eq_nil_iff]
      intro d hd
      simp only [TagDef.matches, jsIncludes, List.any_eq_true]
      rintro ⟨kw, hkw, hdec⟩
      exact hnone d hd kw hkw (by simpa using hdec)
    simp [this]

/-- Witness for C1 at concrete inputs: the `framing` tag is detected in
a message containing the keyword "framing", and a keyword-free input
yields no tags. -/
theorem detectTags_spec_witness :
    (∃ d ∈ TAG_DEFINITIONS,
        d.id = "framing" ∧
          d.toDetectedTag ∈ detectTags "Framing crew finished the north wall")
    ∧ detectTags "xyzzy" = [] := by
  constructor
  · refine ⟨TAG_DEFINITIONS.get ⟨3, by decide⟩, by decide, by decide, ?_⟩
    exact (detectTags_spec.1 "Framing crew finished the north wall" _ (by decide)).mpr
      ⟨"framing", by decide, by decide⟩
  · exact detectTags_spec.2.2.2.1 "xyzzy" (by decide)

/-! ## Channel-membership lemmas -/

/-- C2: for every `tag-filter` channel, a message passes the channel's
message filter (the one filter used both for the channel's view and for
its unread candidate set) iff the ids of its detected tags intersect the
channel's configured tag-id set; the unread candidate set of
`getUnreadCountsByChannel` is exactly the project's messages restricted
by that same filter; and the multi-tag channel `rfis-submittals` is a
registered `tag-filter` channel with the two tag ids `rfi` and
`inspection`. -/
theorem tagFilter_channel_membership :
    (∀ ch ∈ CHANNELS, ch.type = ChannelType.tagFilter → ∀ m : Message,
        (messageMatchesChannel ch m = true ↔
          ∃ tid ∈ (detectTags m.content).map DetectedTag.id, tid ∈ ch.tagIds))
    ∧ (∀ ch ∈ CHANNELS, ch.type = ChannelType.tagFilter →
        ∀ (s : Store) (userId projectId : String),
          channelUnreadCount s userId projectId ch =
            (((getAllMessagesForProject s projectId).filter
                (fun m => messageMatchesChannel ch m)).filter
              (fun m => !(m.authorId == userId) &&
                decide ((getChannelLastReadTimestamp s userId projectId ch.id).getD 0
                  < m.createdAt))).length)
    ∧ (∃ ch ∈ CHANNELS, getChannelById "rfis-submittals" = some ch ∧
        ch.type = ChannelType.tagFilter ∧ ch.tagIds = ["rfi", "inspection"]) := by
  refine ⟨?_, ?_, ?_⟩
  · intro ch _ _ m
    simp only [messageMatchesChannel, List.any_eq_true, List.mem_map]
    constructor
    · rintro ⟨tag, htag, hc⟩
      exact ⟨tag.id, ⟨tag, htag, rfl⟩, by simpa using hc⟩
    · rintro ⟨tid, ⟨tag, htag, rfl⟩, hin⟩
      exact ⟨tag, htag, by simpa using hin⟩
  · rintro ⟨cid, cname, cdesc, ctags, ctype⟩ hch htype s userId projectId
    have h' : ctype = ChannelType.tagFilter := htype
    subst h'
    rfl
  · refine ⟨CHANNELS.get ⟨8, by decide⟩, by decide, by decide, by decide, by decide⟩

/-- Witness for C2: the message "Submittal sent to the architect"
belongs to the `rfis-submittals` channel. -/
theorem tagFilter_channel_membership_witness :
    ∃ ch ∈ CHANNELS, ch.id = "rfis-submittals" ∧
      messageMatchesChannel ch
        { id := "m9", projectId := "p1", scheduleItemId := none, authorId := "alice",
          authorName := "Alice", authorRole := "project_manager",
          content := "Submittal sent to the architect", createdAt := 400 } = true := by
  refine ⟨CHANNELS.get ⟨8, by decide⟩, by decide, by decide, ?_⟩
  exact (tagFilter_channel_membership.1 _ (by decide) (by decide) _).mpr
    ⟨"rfi", by decide, by decide⟩

/-! ## Unread-count formula lemmas

`getMessagesForThread` and `getAllMessagesForProject` sort their result;
counting after a filter is invariant under that permutation, giving
closed formulas for the unread counts over the raw message list. -/

theorem unread_formula_none {s : Store} {userId projectId : String}
    {scheduleItemId : Option String}
    (h : getLastReadTimestamp s userId projectId scheduleItemId = none) :
    getUnreadCountForThread s userId projectId scheduleItemId =
      ((s.messages.filter
          (fun m => m.projectId == projectId && m.scheduleItemId == scheduleItemId)).filter
        (fun m => !(m.authorId == userId))).length := by
  simp only [getUnreadCountForThread, getMessagesForThread, h]
  exact ((List.mergeSort_perm _ _).filter _).length_eq

theorem unread_formula_some {s : Store} {userId projectId : String}
    {scheduleItemId : Option String} {t : Int}
    (h : getLastReadTimestamp s userId projectId scheduleItemId = some t) :
    getUnreadCountForThread s userId projectId scheduleItemId =
      ((s.messages.filter
          (fun m => m.projectId == projectId && m.scheduleItemId == scheduleItemId)).filter
        (fun m => !(m.authorId == userId) && decide (t < m.createdAt))).length := by
  simp only [getUnreadCountForThread, getMessagesForThread, h]
  exact ((List.mergeSort_perm _ _).filter _).length_eq

theorem channelUnread_formula_general {s : Store} {userId projectId : String}
    {ch : ChannelConfig} (h : ch.type = ChannelType.general) :
    channelUnreadCount s userId projectId ch =
      (((s.messages.filter (fun m => m.projectId == projectId)).filter
          (fun m => m.scheduleItemId == none)).filter
        (fun m => !(m.authorId == userId) &&
          decide ((getChannelLastReadTimestamp s userId projectId ch.id).getD 0
            < m.createdAt))).length := by
  obtain ⟨cid, cname, cdesc, ctags, ctype⟩ := ch
  have h' : ctype = ChannelType.general := h
  subst h'
  simp only [channelUnreadCount, getAllMessagesForProject]
  exact (((List.mergeSort_perm _ _).filter _).filter _).length_eq

theorem channelUnread_formula_tagFilter {s : Store} {userId projectId : String}
    {ch : ChannelConfig} (h : ch.type = ChannelType.tagFilter) :
    channelUnreadCount s userId projectId ch =
      (((s.messages.filter (fun m => m.projectId == projectId)).filter
          (fun m => messageMatchesChannel ch m)).filter
        (fun m => !(m.authorId == userId) &&
          decide ((getChannelLastReadTimestamp s userId projectId ch.id).getD 0
            < m.createdAt))).length := by
  obtain ⟨cid, cname, cdesc, ctags, ctype⟩ := ch
  have h' : ctype = ChannelType.tagFilter := h
  subst h'
  simp only [channelUnreadCount, getAllMessagesForProject]
  exact (((List.mergeSort_perm _ _).filter _).filter _).length_eq

/-- C3: with no read-ledger entry for the thread, the unread count is
the number of messages in the thread not authored by the user —
self-authored messages are never counted. -/
theorem unread_never_read (s : Store) (userId projectId : String)
    (scheduleItemId : Option String)
    (h : getLastReadTimestamp s userId projectId scheduleItemId = none) :
    getUnreadCountForThread s userId projectId scheduleItemId =
      ((s.messages.filter
          (fun m => m.projectId == projectId && m.scheduleItemId == scheduleItemId)).filter
        (fun m => !(m.authorId == userId))).length :=
  unread_formula_none h

/-- Witness for C3: alice never read the general thread of `p1`; of its
two messages exactly one (bob's) is unread for her. -/
theorem unread_never_read_witness :
    getUnreadCountForThread demoStore "alice" "p1" none = 1 := by
  rw [unread_never_read demoStore "alice" "p1" none rfl]
  decide

/-- C4: with a read-ledger entry `t`, the unread count counts exactly
the messages of other authors with `createdAt > t` (strict); adding a
message whose `createdAt` equals `t` exactly leaves the count
unchanged — the boundary is exclusive. -/
theorem unread_strict_boundary (s : Store) (userId projectId : String)
    (scheduleItemId : Option String) (t : Int)
    (h : getLastReadTimestamp s userId projectId scheduleItemId = some t) :
    getUnreadCountForThread s userId projectId scheduleItemId =
      ((s.messages.filter
          (fun m => m.projectId == projectId && m.scheduleItemId == scheduleItemId)).filter
        (fun m => !(m.authorId == userId) && decide (t < m.createdAt))).length
    ∧ (∀ m : Message, m.projectId = projectId → m.scheduleItemId = scheduleItemId →
        m.createdAt = t →
        getUnreadCountForThread { s with messages := m :: s.messages }
            userId projectId scheduleItemId
          = getUnreadCountForThread s userId projectId scheduleItemId) := by
  refine ⟨unread_formula_some h, ?_⟩
  intro m hm1 hm2 hm3
  have h' : getLastReadTimestamp { s with messages := m :: s.messages }
      userId projectId scheduleItemId = some t := h
  rw [unread_formula_some h', unread_formula_some h]
  have hthread : (fun m => m.projectId == projectId && m.scheduleItemId == scheduleItemId) m
      = true := by
    simp [hm1, hm2]
  have hpred : (fun m => !(m.authorId == userId) && decide (t < m.createdAt)) m = false := by
    simp [hm3]
  simp only [List.filter_cons, hthread, if_pos, hpred]
  simp

/-- Witness for C4: alice read the general thread of `p1` at time 200;
bob's message created exactly at 200 is not counted unread. -/
theorem unread_strict_boundary_witness :
    getUnreadCountForThread readStore "alice" "p1" none = 0 := by
  rw [(unread_strict_boundary readStore "alice" "p1" none 200 (by decide)).1]
  decide

/-- C5: the thread-read ledger and the channel-read ledger are
independent: `markThreadAsRead` changes no channel unread count and
`markChannelAsRead` changes no thread unread count, for every user,
project, thread and channel. -/
theorem ledgers_independent (now : Int) (userId projectId : String)
    (scheduleItemId : Option String) (channelId : String) (s : Store)
    (u2 p2 : String) (i2 : Option String) :
    getUnreadCountsByChannel (markThreadAsRead now userId projectId scheduleItemId s) u2 p2
      = getUnreadCountsByChannel s u2 p2
    ∧ getUnreadCountForThread (markChannelAsRead now userId projectId channelId s) u2 p2 i2
      = getUnreadCountForThread s u2 p2 i2 :=
  ⟨rfl, rfl⟩

/-- C6 (amended): the channel ledger's never-read default (count
everything after epoch zero) and the thread ledger's never-read branch
(count every non-self message) agree on every candidate message set
whose messages all have creation time strictly after epoch zero. -/
theorem never_read_defaults_agree (userId : String) (msgs : List Message)
    (h : ∀ m ∈ msgs, 0 < m.createdAt) :
    channelNeverReadCount userId msgs = threadNeverReadCount userId msgs := by
  unfold channelNeverReadCount threadNeverReadCount
  congr 1
  apply List.filter_congr
  intro m hm
  simp [h m hm]

/-- Witness for C6 (amended) on the sample messages, all created after
epoch zero. -/
theorem never_read_defaults_agree_witness :
    channelNeverReadCount "alice" demoMessages = threadNeverReadCount "alice" demoMessages :=
  never_read_defaults_agree "alice" demoMessages (by decide)

/-- Counterexample for C6 as stated: on a candidate set containing a
message created exactly at epoch zero, the two never-read defaults
disagree — the channel-side rule (strictly after time 0) misses the
message while the thread-side rule counts it; the real store functions
exhibit the same divergence on `epochStore`. -/
theorem never_read_defaults_counterexample :
    (¬ ∀ (userId : String) (msgs : List Message),
        channelNeverReadCount userId msgs = threadNeverReadCount userId msgs)
    ∧ getUnreadCountForThread epochStore "reader" "p1" none = 1
    ∧ channelUnreadCount epochStore "reader" "p1"
        { id := "general", name := "general", description := "Project-wide discussion",
          tagIds := [], type := ChannelType.general } = 0 := by
  refine ⟨?_, ?_, ?_⟩
  · intro h
    have := h "reader" [epochMsg]
    simp [channelNeverReadCount, threadNeverReadCount, epochMsg] at this
  · rw [unread_formula_none
      (show getLastReadTimestamp epochStore "reader" "p1" none = none from rfl)]
    decide
  · rw [channelUnread_formula_general
      (show ChannelConfig.type
          { id := "general", name := "general",
            description := "Project-wide discussion",
            tagIds := [], type := ChannelType.general } = ChannelType.general from rfl)]
    decide

/-! ## Daily-log upsert lemmas -/

/-- The in-place update never finds a record iff no record matches the
(projectId, date) key. -/
theorem upsertGo_none_iff (now : Int) (projectId date : String) (u : DailyLogUpdates)
    (logs : List DailyLog) :
    upsertGo now projectId date u logs = none ↔
      ∀ log ∈ logs, (log.projectId == projectId && log.date == date) = false := by
  induction logs with
  | nil => simp [upsertGo]
  | cons log rest ih =>
    cases hb : (log.projectId == projectId && log.date == date) with
    | true =>
      simp only [upsertGo, hb, if_true]
      constructor
      · intro h; simp at h
      · intro hall
        have h2 := hall log (List.mem_cons_self log rest)
        rw [hb] at h2
        simp at h2
    | false =>
      simp only [upsertGo, hb, Bool.false_eq_true, if_false, Option.map_eq_none']
      rw [ih]
      constructor
      · intro hall log2 hmem
        rcases List.mem_cons.mp hmem with hrfl | hmem2
        · subst hrfl; exact hb
        · exact hall log2 hmem2
      · intro hall log2 hmem
        exact hall log2 (List.mem_cons_of_mem _ hmem)

/-- What the in-place update produces when it finds a record: the first
matching record is replaced with its updated copy, so the first match
of the result is the returned record, the returned record carries the
supplied fields, the number of matching records is unchanged, the
non-matching records are untouched, and the returned record is the
update of the previously found record. -/
theorem upsertGo_some_spec (now : Int) (projectId date : String) (u : DailyLogUpdates) :
    ∀ (logs logs2 : List DailyLog) (l : DailyLog),
      upsertGo now projectId date u logs = some (l, logs2) →
      logs2.find? (fun log => log.projectId == projectId && log.date == date) = some l
      ∧ (l.rawEntry = u.rawEntry ∧ l.weather = u.weather ∧ l.crewCount = u.crewCount
          ∧ l.visitors = u.visitors ∧ l.updatedAt = now)
      ∧ logs2.countP (fun log => log.projectId == projectId && log.date == date)
          = logs.countP (fun log => log.projectId == projectId && log.date == date)
      ∧ logs2.filter (fun log => !(log.projectId == projectId && log.date == date))
          = logs.filter (fun log => !(log.projectId == projectId && log.date == date))
      ∧ (∃ old, logs.find? (fun log => log.projectId == projectId && log.date == date)
            = some old ∧ l = old.applyUpdates u now) := by
  intro logs
  induction logs with
  | nil => intro logs2 l h; simp [upsertGo] at h
  | cons log rest ih =>
    intro logs2 l h
    cases hb : (log.projectId == projectId && log.date == date) with
    | true =>
      simp only [upsertGo, hb, if_true] at h
      obtain ⟨rfl, rfl⟩ : log.applyUpdates u now = l ∧ log.applyUpdates u now :: rest = logs2 := by
        simpa [eq_comm] using h
      have hb' : ((log.applyUpdates u now).projectId == projectId
          && (log.applyUpdates u now).date == date) = true := hb
      refine ⟨?_, ⟨rfl, rfl, rfl, rfl, rfl⟩, ?_, ?_, log, ?_, rfl⟩
      · simp only [List.find?_cons, hb']
      · simp only [List.countP_cons, hb, hb', eq_self_iff_true, if_true]
      · simp only [List.filter_cons, hb, hb', Bool.not_true, Bool.false_eq_true, if_false]
      · simp only [List.find?_cons, hb]
    | false =>
      simp only [upsertGo, hb, Bool.false_eq_true, if_false] at h
      cases hrec : upsertGo now projectId date u rest with
      | none => rw [hrec] at h; simp at h
      | some pr =>
        obtain ⟨l0, rest2⟩ := pr
        rw [hrec, Option.map_some'] at h
        obtain ⟨rfl, rfl⟩ : l0 = l ∧ log :: rest2 = logs2 := by simpa using h
        obtain ⟨hfind, hfields, hcount, hframe, old, hold, holdEq⟩ := ih rest2 l0 hrec
        refine ⟨?_, hfields, ?_, ?_, old, ?_, holdEq⟩
        · simp only [List.find?_cons, hb]
          exact hfind
        · simp only [List.countP_cons, hb, Bool.false_eq_true, if_false, Nat.add_zero]
          exact hcount
        · simp only [List.filter_cons, hb, Bool.not_false, eq_self_iff_true, if_true, hframe]
        · simp only [List.find?_cons, hb]
          exact hold

/-- One upsert keeps the (projectId, date) key unique: if at most one
record matched before, at most one matches after. -/
theorem upsert_preserves_unique (now : Int) (projectId date : String)
    (u : DailyLogUpdates) (s : Store)
    (h : s.dailyLogs.countP (fun log => log.projectId == projectId && log.date == date) ≤ 1) :
    (upsertDailyLog now projectId date u s).2.dailyLogs.countP
        (fun log => log.projectId == projectId && log.date == date) ≤ 1 := by
  cases hg : upsertGo now projectId date u s.dailyLogs with
  | some pr =>
    obtain ⟨l, logs2⟩ := pr
    obtain ⟨-, -, hcount, -, -⟩ := upsertGo_some_spec now projectId date u s.dailyLogs logs2 l hg
    simp only [upsertDailyLog, hg]
    rw [hcount]
    exact h
  | none =>
    have h0 : s.dailyLogs.countP
        (fun log => log.projectId == projectId && log.date == date) = 0 :=
      List.countP_eq_zero.mpr
        (fun a ha => by simp [(upsertGo_none_iff now projectId date u s.dailyLogs).mp hg a ha])
    simp only [upsertDailyLog, hg]
    rw [List.countP_append, h0]
    simp [List.countP_cons]

/-- C7: an upsert followed by a same-key lookup returns the upserted
record, whose rawEntry / weather / crewCount / visitors equal the
input; and any sequence of upserts for one (projectId, date) key keeps
at most one record for that key, provided at most one existed before. -/
theorem upsertDailyLog_roundtrip :
    (∀ (now : Int) (projectId date : String) (u : DailyLogUpdates) (s : Store),
        getDailyLogByDate (upsertDailyLog now projectId date u s).2 projectId date
          = some (upsertDailyLog now projectId date u s).1
        ∧ (upsertDailyLog now projectId date u s).1.rawEntry = u.rawEntry
        ∧ (upsertDailyLog now projectId date u s).1.weather = u.weather
        ∧ (upsertDailyLog now projectId date u s).1.crewCount = u.crewCount
        ∧ (upsertDailyLog now projectId date u s).1.visitors = u.visitors)
    ∧ (∀ (ops : List (Int × DailyLogUpdates)) (projectId date : String) (s : Store),
        s.dailyLogs.countP (fun log => log.projectId == projectId && log.date == date) ≤ 1 →
        ((ops.foldl (fun st op => (upsertDailyLog op.1 projectId date op.2 st).2) s).dailyLogs).countP
            (fun log => log.projectId == projectId && log.date == date) ≤ 1) := by
  constructor
  · intro now projectId date u s
    cases hg : upsertGo now projectId date u s.dailyLogs with
    | some pr =>
      obtain ⟨l, logs2⟩ := pr
      obtain ⟨hfind, hfields, -, -, -⟩ :=
        upsertGo_some_spec now projectId date u s.dailyLogs logs2 l hg
      simp only [upsertDailyLog, hg, getDailyLogByDate]
      exact ⟨hfind, hfields.1, hfields.2.1, hfields.2.2.1, hfields.2.2.2.1⟩
    | none =>
      have hnone : s.dailyLogs.find?
          (fun log => log.projectId == projectId && log.date == date) = none :=
        List.find?_eq_none.mpr
          (fun x hx => by simp [(upsertGo_none_iff now projectId date u s.dailyLogs).mp hg x hx])
      simp only [upsertDailyLog, hg, getDailyLogByDate]
      rw [List.find?_append, hnone, Option.none_or]
      simp [List.find?_cons_of_pos]
  · intro ops projectId date s h
    induction ops generalizing s with
    | nil => simpa using h
    | cons op rest ih =>
      simp only [List.foldl_cons]
      exact ih _ (upsert_preserves_unique op.1 projectId date op.2 s h)

/-- Witness for C7: upserting a fresh date into the sample store and
reading it back; and a sequence of two upserts on an existing date keeps
the key unique. -/
theorem upsertDailyLog_roundtrip_witness :
    (getDailyLogByDate (upsertDailyLog 500 "p1" "2026-02-05" demoUpdates demoStore).2
        "p1" "2026-02-05"
      = some (upsertDailyLog 500 "p1" "2026-02-05" demoUpdates demoStore).1)
    ∧ (([(600, demoUpdates), (700, demoUpdates)].foldl
          (fun st op => (upsertDailyLog op.1 "p1" "2026-02-03" op.2 st).2)
          demoStore).dailyLogs.countP
        (fun log => log.projectId == "p1" && log.date == "2026-02-03") ≤ 1) :=
  ⟨(upsertDailyLog_roundtrip.1 500 "p1" "2026-02-05" demoUpdates demoStore).1,
   upsertDailyLog_roundtrip.2 [(600, demoUpdates), (700, demoUpdates)] "p1" "2026-02-03"
     demoStore (by decide)⟩

/-! ## Parse-endpoint lemmas -/

/-- Trimming never lengthens a string. -/
theorem jsTrim_length_le (s : String) : (jsTrim s).length ≤ s.length := by
  have h1 : ((s.data.dropWhile Char.isWhitespace).reverse.dropWhile Char.isWhitespace).length
      ≤ (s.data.dropWhile Char.isWhitespace).reverse.length :=
    (List.dropWhile_sublist _).length_le
  have h2 : (s.data.dropWhile Char.isWhitespace).length ≤ s.data.length :=
    (List.dropWhile_sublist _).length_le
  simp only [jsTrim, String.length, List.length_reverse] at *
  omega

/-- C8: with the API key configured, a request whose `rawEntry` is
missing or shorter than 50 characters is answered with the 400
validation error "Entry too short to parse"; the downstream
text-classification call is never made; and the store produced by the
save-then-parse page flow is exactly the store after the save,
independent of the parse outcome. -/
theorem parse_rejects_short_entry (apiKey : Option String) (k : String)
    (rawEntry : Option String) (items : List ScheduleItemRef)
    (hkey : apiKey = some k)
    (hshort : rawEntry = none ∨ ∃ r, rawEntry = some r ∧ r.length < 50) :
    parseLogPOST apiKey rawEntry items = ParseOutcome.reject "Entry too short to parse" 400
    ∧ (∀ (r : String) (si : List ScheduleItemRef),
        parseLogPOST apiKey rawEntry items ≠ ParseOutcome.callModel r si)
    ∧ (∀ (now : Int) (projectId date : String) (u : DailyLogUpdates) (s : Store),
        (saveThenParse now apiKey projectId date u items s).1
          = (upsertDailyLog now projectId date u s).2) := by
  subst hkey
  have hmain : parseLogPOST (some k) rawEntry items
      = ParseOutcome.reject "Entry too short to parse" 400 := by
    rcases hshort with rfl | ⟨r, rfl, hr⟩
    · rfl
    · have hlt : (jsTrim r).length < 50 := Nat.lt_of_le_of_lt (jsTrim_length_le r) hr
      simp [parseLogPOST, hlt]
  exact ⟨hmain, fun r si => by rw [hmain]; simp, fun _ _ _ _ _ => rfl⟩

/-- Witness for C8: a 15-character entry is rejected with the 400
validation error. -/
theorem parse_rejects_short_entry_witness :
    parseLogPOST (some "sk-test") (some "Rained all day.") []
      = ParseOutcome.reject "Entry too short to parse" 400 :=
  (parse_rejects_short_entry (some "sk-test") "sk-test" (some "Rained all day.") [] rfl
    (Or.inr ⟨"Rained all day.", rfl, by decide⟩)).1

/-! ## Missing-id lemmas for schedule items -/

theorem updateStatusGo_none (now : Int) (itemId : String) (status : ScheduleItemStatus)
    (items : List ScheduleItem) (h : ∀ item ∈ items, (item.id == itemId) = false) :
    updateStatusGo now itemId status items = none := by
  induction items with
  | nil => rfl
  | cons item rest ih =>
    have hb := h item (List.mem_cons_self item rest)
    simp only [updateStatusGo, hb, Bool.false_eq_true, if_false, Option.map_eq_none']
    exact ih (fun x hx => h x (List.mem_cons_of_mem _ hx))

theorem updateItemGo_none (now : Int) (itemId : String) (upd : ScheduleItemUpdates)
    (items : List ScheduleItem) (h : ∀ item ∈ items, (item.id == itemId) = false) :
    updateItemGo now itemId upd items = none := by
  induction items with
  | nil => rfl
  | cons item rest ih =>
    have hb := h item (List.mem_cons_self item rest)
    simp only [updateItemGo, hb, Bool.false_eq_true, if_false, Option.map_eq_none']
    exact ih (fun x hx => h x (List.mem_cons_of_mem _ hx))

theorem deleteGo_none (itemId : String) (items : List ScheduleItem)
    (h : ∀ item ∈ items, (item.id == itemId) = false) :
    deleteGo itemId items = none := by
  induction items with
  | nil => rfl
  | cons item rest ih =>
    have hb := h item (List.mem_cons_self item rest)
    simp only [deleteGo, hb, Bool.false_eq_true, if_false, Option.map_eq_none']
    exact ih (fun x hx => h x (List.mem_cons_of_mem _ hx))

/-- C9: when no schedule item has the target id, the two update
operations return `undefined` (`none`), deletion returns `false`, and
the store — in particular the stored schedule-item collection — is left
unchanged by all three. -/
theorem missing_schedule_item_noop (now : Int) (itemId : String)
    (status : ScheduleItemStatus) (upd : ScheduleItemUpdates) (s : Store)
    (h : ∀ item ∈ s.scheduleItems, item.id ≠ itemId) :
    updateScheduleItemStatus now itemId status s = (none, s)
    ∧ updateScheduleItem now itemId upd s = (none, s)
    ∧ deleteScheduleItem itemId s = (false, s) := by
  have hb : ∀ item ∈ s.scheduleItems, (item.id == itemId) = false := fun item hi =>
    beq_eq_false_iff_ne.mpr (h item hi)
  refine ⟨?_, ?_, ?_⟩
  · simp only [updateScheduleItemStatus,
      updateStatusGo_none now itemId status s.scheduleItems hb]
  · simp only [updateScheduleItem, updateItemGo_none now itemId upd s.scheduleItems hb]
  · simp only [deleteScheduleItem, deleteGo_none itemId s.scheduleItems hb]

/-- Witness for C9 on the sample store, which has no item with id
"missing-id". -/
theorem missing_schedule_item_noop_witness :
    updateScheduleItemStatus 7 "missing-id" ScheduleItemStatus.completed demoStore
      = (none, demoStore)
    ∧ updateScheduleItem 7 "missing-id" demoItemUpdates demoStore = (none, demoStore)
    ∧ deleteScheduleItem "missing-id" demoStore = (false, demoStore) :=
  missing_schedule_item_noop 7 "missing-id" ScheduleItemStatus.completed demoItemUpdates
    demoStore (by decide)

/-! ## Update-in-place frame lemma for the daily-log upsert -/

/-- When a record for the key is present, the in-place update acts on
the first match found by `find?`. -/
theorem upsertGo_of_find (now : Int) (projectId date : String) (u : DailyLogUpdates) :
    ∀ (logs : List DailyLog) (old : DailyLog),
      logs.find? (fun log => log.projectId == projectId && log.date == date) = some old →
      ∃ logs2, upsertGo now projectId date u logs = some (old.applyUpdates u now, logs2) := by
  intro logs
  induction logs with
  | nil => intro old h; simp at h
  | cons log rest ih =>
    intro old h
    cases hb : (log.projectId == projectId && log.date == date) with
    | true =>
      simp only [List.find?_cons, hb] at h
      obtain rfl : log = old := by simpa using h
      exact ⟨log.applyUpdates u now :: rest, by simp only [upsertGo, hb, if_true]⟩
    | false =>
      simp only [List.find?_cons, hb] at h
      obtain ⟨logs2, hrec⟩ := ih old h
      exact ⟨log :: logs2,
        by simp only [upsertGo, hb, Bool.false_eq_true, if_false, hrec, Option.map_some']⟩

/-- C10: upserting an existing (projectId, date) record preserves its
id, createdAt, projectId, date and parsedData, replaces exactly the
supplied fields (rawEntry, weather, crewCount, visitors) and updatedAt,
leaves every daily-log record for other (project, date) keys untouched,
and leaves the other store collections untouched. -/
theorem upsert_existing_preserves_identity (now : Int) (projectId date : String)
    (u : DailyLogUpdates) (s : Store) (old : DailyLog)
    (hfound : getDailyLogByDate s projectId date = some old) :
    (upsertDailyLog now projectId date u s).1.id = old.id
    ∧ (upsertDailyLog now projectId date u s).1.createdAt = old.createdAt
    ∧ (upsertDailyLog now projectId date u s).1.projectId = old.projectId
    ∧ (upsertDailyLog now projectId date u s).1.date = old.date
    ∧ (upsertDailyLog now projectId date u s).1.parsedData = old.parsedData
    ∧ (upsertDailyLog now projectId date u s).1.rawEntry = u.rawEntry
    ∧ (upsertDailyLog now projectId date u s).1.weather = u.weather
    ∧ (upsertDailyLog now projectId date u s).1.crewCount = u.crewCount
    ∧ (upsertDailyLog now projectId date u s).1.visitors = u.visitors
    ∧ (upsertDailyLog now projectId date u s).1.updatedAt = now
    ∧ (upsertDailyLog now projectId date u s).2.dailyLogs.filter
        (fun log => !(log.projectId == projectId && log.date == date))
      = s.dailyLogs.filter (fun log => !(log.projectId == projectId && log.date == date))
    ∧ (upsertDailyLog now projectId date u s).2.messages = s.messages
    ∧ (upsertDailyLog now projectId date u s).2.scheduleItems = s.scheduleItems := by
  obtain ⟨logs2, hg⟩ := upsertGo_of_find now projectId date u s.dailyLogs old hfound
  obtain ⟨-, -, -, hframe, -⟩ :=
    upsertGo_some_spec now projectId date u s.dailyLogs logs2 (old.applyUpdates u now) hg
  have hup : upsertDailyLog now projectId date u s
      = (old.applyUpdates u now, { s with dailyLogs := logs2 }) := by
    simp only [upsertDailyLog, hg]
  rw [hup]
  exact ⟨rfl, rfl, rfl, rfl, rfl, rfl, rfl, rfl, rfl, rfl, hframe, rfl, rfl⟩

/-- Witness for C10: updating the sample store's existing log for
(p1, 2026-02-03) keeps its id and createdAt and installs the supplied
rawEntry. -/
theorem upsert_existing_preserves_identity_witness :
    (upsertDailyLog 999 "p1" "2026-02-03" demoUpdates demoStore).1.id = demoLog.id
    ∧ (upsertDailyLog 999 "p1" "2026-02-03" demoUpdates demoStore).1.createdAt
        = demoLog.createdAt
    ∧ (upsertDailyLog 999 "p1" "2026-02-03" demoUpdates demoStore).1.rawEntry
        = demoUpdates.rawEntry := by
  have h := upsert_existing_preserves_identity 999 "p1" "2026-02-03" demoUpdates demoStore
    demoLog (by decide)
  exact ⟨h.1, h.2.1, h.2.2.2.2.2.1⟩

end Gloo
